import Mathlib

/-
Shallow embedding of the speed-test client/server pair (src/server.py,
src/client.py).  Byte strings are modelled as `List Nat` (each entry one
byte); `struct.pack`/`struct.unpack` with big-endian layout `!IBQQ` etc.
are modelled by `toBytesBE`/`fromBytesBE`.  Sets of received segment
indices are `Finset Nat`, mirroring the Python `set`.  Rationals stand in
for Python floats in the throughput/average computations.
-/

/-- Big-endian encoding of `n` into `w` bytes, mirroring `struct.pack`
(the value is truncated mod 256^w, as `struct.pack` does for the field). -/
def toBytesBE : Nat → Nat → List Nat
  | 0, _ => []
  | w + 1, n => toBytesBE w (n / 256) ++ [n % 256]

/-- Big-endian decoding of a byte list, mirroring `struct.unpack`. -/
def fromBytesBE (bs : List Nat) : Nat :=
  bs.foldl (fun a b => a * 256 + b) 0

/-- `MAGIC_COOKIE` / `MAGIC_NUMBER` constant (both files). -/
def MAGIC_COOKIE : Nat := 0xabcddcba

/-- Offer message type tag (0x2). -/
def MESSAGE_TYPE_OFFER : Nat := 0x2

/-- Request message type tag (0x3). -/
def MESSAGE_TYPE_REQUEST : Nat := 0x3

/-- Payload message type tag (0x4). -/
def MESSAGE_TYPE_PAYLOAD : Nat := 0x4

/-- `struct.pack('!IBQQ', MAGIC, PAYLOAD, total, idx)` followed by a payload:
the byte layout shared by the server's segment builder and by any payload
frame the client can receive. -/
def packPayload (total idx : Nat) (payload : List Nat) : List Nat :=
  toBytesBE 4 MAGIC_COOKIE ++ toBytesBE 1 MESSAGE_TYPE_PAYLOAD ++
    toBytesBE 8 total ++ toBytesBE 8 idx ++ payload

namespace Server

/-- `BUFFER_SIZE` in src/server.py (line 12): 4096. -/
def BUFFER_SIZE : Nat := 4096

/-- `total_segments` computed in `Server.handle_udp_request`
(src/server.py line 88):
`file_size // BUFFER_SIZE + (1 if file_size % BUFFER_SIZE != 0 else 0)`. -/
def total_segments (file_size : Nat) : Nat :=
  file_size / BUFFER_SIZE + (if file_size % BUFFER_SIZE ≠ 0 then 1 else 0)

/-- The datagram sent for loop index `i` in `handle_udp_request`
(src/server.py line 92):
`struct.pack('!IBQQ', MAGIC_NUMBER, PAYLOAD_MSG_TYPE, total_segments, i + 1)
 + b"X" * BUFFER_SIZE` (`b"X"` is byte 88). -/
def segment (total i : Nat) : List Nat :=
  packPayload total (i + 1) (List.replicate BUFFER_SIZE 88)

/-- The full sequence of datagrams `handle_udp_request` sends for a request
of `file_size` bytes (src/server.py lines 88-94): one `segment` per loop
index `i in range(total_segments)`. -/
def handle_udp_request (file_size : Nat) : List (List Nat) :=
  (List.range (total_segments file_size)).map (segment (total_segments file_size))

/-- The chunk sizes written by the send loop of `Server.handle_tcp_request`
(src/server.py lines 68-72): while `total_sent < file_size`, send
`min(BUFFER_SIZE, file_size - total_sent)` bytes.  The argument is the
number of bytes still to send. -/
def tcpChunks (remaining : Nat) : List Nat :=
  if _h : remaining = 0 then []
  else min BUFFER_SIZE remaining :: tcpChunks (remaining - min BUFFER_SIZE remaining)
termination_by remaining
decreasing_by
  have h4 : 0 < min BUFFER_SIZE remaining := by
    simp [BUFFER_SIZE]
    omega
  omega

end Server

namespace Client

/-- `BUFFER_SIZE` in src/client.py (line 31): 1024. -/
def BUFFER_SIZE : Nat := 1024

/-- The per-transfer UDP receive state of `udp_transfer`
(src/client.py lines 142-143): the set `received_segments` and the counter
`total_received`. -/
structure Tracker where
  received : Finset Nat
  total_received : Nat
deriving DecidableEq

/-- First field of `struct.unpack('!IBQQ', data[:21])` /
`struct.unpack('!IBHH', data[:10])`: bytes 0-3, big-endian. -/
def parseMagic (data : List Nat) : Nat := fromBytesBE (data.take 4)

/-- Second field: byte 4. -/
def parseType (data : List Nat) : Nat := fromBytesBE ((data.drop 4).take 1)

/-- `total_segments` field of `struct.unpack('!IBQQ', data[:21])`:
bytes 5-12, big-endian (src/client.py line 161). -/
def parseTotalSegments (data : List Nat) : Nat := fromBytesBE ((data.drop 5).take 8)

/-- `current_segment` field of `struct.unpack('!IBQQ', data[:21])`:
bytes 13-20, big-endian (src/client.py line 161). -/
def parseSegmentIndex (data : List Nat) : Nat := fromBytesBE ((data.drop 13).take 8)

/-- One iteration of the main receive loop of `udp_transfer`
(src/client.py lines 156-169) applied to a delivered datagram:
`recvfrom(BUFFER_SIZE + 21)` truncates the datagram to 1045 bytes; frames
shorter than 21 bytes, or with a wrong magic cookie or type tag, are
skipped; a fresh segment index is added to the set and the payload length
`len(data[21:])` is added to `total_received`; duplicates are skipped. -/
def recvStep (st : Tracker) (dgram : List Nat) : Tracker :=
  let data := dgram.take (BUFFER_SIZE + 21)
  if data.length < 21 then st
  else if parseMagic data ≠ MAGIC_COOKIE ∨ parseType data ≠ MESSAGE_TYPE_PAYLOAD then st
  else if parseSegmentIndex data ∈ st.received then st
  else ⟨insert (parseSegmentIndex data) st.received,
        st.total_received + (data.length - 21)⟩

/-- `expected_segments` in `udp_transfer` (src/client.py line 144):
`(file_size + BUFFER_SIZE - 1) // BUFFER_SIZE`. -/
def expected_segments (file_size : Nat) : Nat :=
  (file_size + BUFFER_SIZE - 1) / BUFFER_SIZE

/-- The tracker state after the receive loop of `udp_transfer` has processed
a list of delivered datagrams, starting from the empty set and counter 0. -/
def udpRun (dgrams : List (List Nat)) : Tracker :=
  dgrams.foldl recvStep ⟨∅, 0⟩

/-- `success_rate` computed at the end of `udp_transfer`
(src/client.py line 187): `(len(received_segments) / expected_segments) * 100`. -/
def success_rate (file_size : Nat) (st : Tracker) : ℚ :=
  ((st.received.card : ℚ) / (expected_segments file_size : ℚ)) * 100

/-- Loss rate as the spec defines it from the reported success rate:
`1 - success_rate / 100`. -/
def loss_rate (file_size : Nat) (st : Tracker) : ℚ :=
  1 - success_rate file_size st / 100

/-- One iteration of the `listen_for_offers` loop (src/client.py lines
80-88) applied to one delivered datagram: `recvfrom(BUFFER_SIZE)` truncates
to 1024 bytes; `struct.unpack('!IBHH', data[:10])` succeeds only on a
buffer of exactly 9 bytes (a shorter or longer one raises, which the
`except` swallows); the offer is returned only if the magic cookie and the
Offer type tag match. -/
def parseOffer (dgram : List Nat) : Option (Nat × Nat) :=
  let data := dgram.take BUFFER_SIZE
  if data.length = 9 then
    if parseMagic data = MAGIC_COOKIE ∧ parseType data = MESSAGE_TYPE_OFFER then
      some (fromBytesBE ((data.drop 5).take 2), fromBytesBE ((data.drop 7).take 2))
    else none
  else none

/-- `listen_for_offers` (src/client.py lines 70-88) over the sequence of
delivered datagrams: returns the first successfully parsed offer, skipping
every other datagram. -/
def listen_for_offers : List (List Nat) → Option (Nat × Nat)
  | [] => none
  | d :: rest =>
    match parseOffer d with
    | some o => some o
    | none => listen_for_offers rest

/-- The speed computed by `tcp_transfer` (src/client.py line 114):
`(total_received * 8) / (elapsed_time if elapsed_time > 0 else 0.001)`. -/
def tcp_speed (total_received : Nat) (elapsed : ℚ) : ℚ :=
  (total_received * 8 : ℚ) / (if 0 < elapsed then elapsed else 1/1000)

/-- The elapsed-time adjustment of `udp_transfer` (src/client.py lines
183-184): `if elapsed_time == 0: elapsed_time = 0.001`. -/
def udp_adjusted_elapsed (elapsed : ℚ) : ℚ :=
  if elapsed = 0 then 1/1000 else elapsed

/-- The speed computed by `udp_transfer` (src/client.py line 186):
`(total_received * 8) / elapsed_time` after the zero adjustment. -/
def udp_speed (total_received : Nat) (elapsed : ℚ) : ℚ :=
  (total_received * 8 : ℚ) / udp_adjusted_elapsed elapsed

/-- A record appended to `connection_stats`: either
`{"type": "TCP", "file_size": ..., "speed": ...}` (src/client.py line 115)
or `{"type": "UDP", "file_size": ..., "speed": ..., "success_rate": ...}`
(src/client.py lines 189-194). -/
inductive Stat where
  | tcp (file_size : Nat) (speed : ℚ)
  | udp (file_size : Nat) (speed : ℚ) (success_rate : ℚ)
deriving DecidableEq

/-- `stat["type"] == "TCP"`. -/
def Stat.isTCP : Stat → Bool
  | .tcp _ _ => true
  | .udp _ _ _ => false

/-- `stat["type"] == "UDP"`. -/
def Stat.isUDP : Stat → Bool
  | .tcp _ _ => false
  | .udp _ _ _ => true

/-- `stat["speed"]`. -/
def Stat.speed : Stat → ℚ
  | .tcp _ s => s
  | .udp _ s _ => s

/-- `stat["success_rate"]` (only ever read on UDP records). -/
def Stat.successRate : Stat → ℚ
  | .tcp _ _ => 0
  | .udp _ _ r => r

/-- `tcp_stats = [stat for stat in connection_stats if stat["type"] == "TCP"]`
(src/client.py line 228). -/
def tcp_stats (l : List Stat) : List Stat := l.filter Stat.isTCP

/-- `udp_stats = [stat for stat in connection_stats if stat["type"] == "UDP"]`
(src/client.py line 229). -/
def udp_stats (l : List Stat) : List Stat := l.filter Stat.isUDP

/-- The average TCP speed printed by `speed_test` (src/client.py lines
231-233): computed and printed only when `tcp_stats` is non-empty,
otherwise nothing is output (`none`). -/
def avg_tcp_speed (l : List Stat) : Option ℚ :=
  if tcp_stats l = [] then none
  else some (((tcp_stats l).map Stat.speed).sum / ((tcp_stats l).length : ℚ))

/-- The average UDP speed and average UDP success rate printed by
`speed_test` (src/client.py lines 235-239): computed and printed only when
`udp_stats` is non-empty, otherwise nothing is output (`none`). -/
def avg_udp_stats (l : List Stat) : Option (ℚ × ℚ) :=
  if udp_stats l = [] then none
  else some (((udp_stats l).map Stat.speed).sum / ((udp_stats l).length : ℚ),
             ((udp_stats l).map Stat.successRate).sum / ((udp_stats l).length : ℚ))

/-- The effect of one `speed_test` round on the module-global
`connection_stats` list (src/client.py line 33): the round's transfers
append their records and nothing is ever removed or cleared. -/
def speed_test_append (stats newRecords : List Stat) : List Stat :=
  stats ++ newRecords

/-- `connection_stats` after the `while True` main loop (src/client.py
lines 244-248) has run the given rounds, each round contributing the list
of records its transfers append. -/
def statsAfterRounds (rounds : List (List Stat)) : List Stat :=
  rounds.foldl speed_test_append []

/-- The `connection_stats` list over which round `n` (0-based) computes and
prints its averages: the global list right after round `n`'s appends,
i.e. after rounds `0..n` have all appended. -/
def statsAtRound (rounds : List (List Stat)) (n : Nat) : List Stat :=
  statsAfterRounds (rounds.take (n + 1))

end Client

/-- `toBytesBE` always produces exactly `w` bytes. -/
theorem length_toBytesBE (w : Nat) : ∀ n, (toBytesBE w n).length = w := by
  induction w with
  | zero => intro n; rfl
  | succ w ih => intro n; simp [toBytesBE, ih]

/-- Peeling the last (least-significant) byte off a big-endian decode. -/
theorem fromBytesBE_append_singleton (l : List Nat) (b : Nat) :
    fromBytesBE (l ++ [b]) = fromBytesBE l * 256 + b := by
  simp [fromBytesBE, List.foldl_append]

/-- Round trip of the codec: decoding an encoded value recovers it modulo
the field width, exactly as `struct.unpack` recovers what `struct.pack`
truncated. -/
theorem fromBytesBE_toBytesBE (w : Nat) : ∀ n, fromBytesBE (toBytesBE w n) = n % 256 ^ w := by
  induction w with
  | zero => intro n; simp [toBytesBE, fromBytesBE, Nat.mod_one]
  | succ w ih =>
    intro n
    rw [toBytesBE, fromBytesBE_append_singleton, ih, pow_succ', Nat.mod_mul]
    ring

/-- Round trip for in-range values. -/
theorem fromBytesBE_toBytesBE_of_lt {w n : Nat} (h : n < 256 ^ w) :
    fromBytesBE (toBytesBE w n) = n := by
  rw [fromBytesBE_toBytesBE, Nat.mod_eq_of_lt h]

/-- A packed payload frame is its 21-byte header plus the payload. -/
theorem packPayload_length (t i : Nat) (pl : List Nat) :
    (packPayload t i pl).length = 21 + pl.length := by
  simp [packPayload, length_toBytesBE]
  omega

/-- The magic-cookie field of a packed payload frame parses back. -/
theorem parseMagic_packPayload (t i : Nat) (pl : List Nat) :
    Client.parseMagic (packPayload t i pl) = MAGIC_COOKIE := by
  have hgrp : packPayload t i pl =
      toBytesBE 4 MAGIC_COOKIE ++ (toBytesBE 1 MESSAGE_TYPE_PAYLOAD ++
        (toBytesBE 8 t ++ (toBytesBE 8 i ++ pl))) := by
    simp [packPayload]
  rw [Client.parseMagic, hgrp, List.take_left' (length_toBytesBE 4 MAGIC_COOKIE)]
  rw [fromBytesBE_toBytesBE_of_lt]
  norm_num [MAGIC_COOKIE]

/-- The type-tag field of a packed payload frame parses back. -/
theorem parseType_packPayload (t i : Nat) (pl : List Nat) :
    Client.parseType (packPayload t i pl) = MESSAGE_TYPE_PAYLOAD := by
  have hgrp : packPayload t i pl =
      toBytesBE 4 MAGIC_COOKIE ++ (toBytesBE 1 MESSAGE_TYPE_PAYLOAD ++
        (toBytesBE 8 t ++ (toBytesBE 8 i ++ pl))) := by
    simp [packPayload]
  rw [Client.parseType, hgrp, List.drop_left' (length_toBytesBE 4 MAGIC_COOKIE),
    List.take_left' (length_toBytesBE 1 MESSAGE_TYPE_PAYLOAD)]
  rw [fromBytesBE_toBytesBE_of_lt]
  norm_num [MESSAGE_TYPE_PAYLOAD]

/-- The `total_segments` field of a packed payload frame parses back
(modulo the u64 width of the `Q` field). -/
theorem parseTotalSegments_packPayload (t i : Nat) (pl : List Nat) :
    Client.parseTotalSegments (packPayload t i pl) = t % 2 ^ 64 := by
  have hgrp : packPayload t i pl =
      (toBytesBE 4 MAGIC_COOKIE ++ toBytesBE 1 MESSAGE_TYPE_PAYLOAD) ++
        (toBytesBE 8 t ++ (toBytesBE 8 i ++ pl)) := by
    simp [packPayload]
  have hlen5 : (toBytesBE 4 MAGIC_COOKIE ++ toBytesBE 1 MESSAGE_TYPE_PAYLOAD).length = 5 := by
    simp [length_toBytesBE]
  rw [Client.parseTotalSegments, hgrp, List.drop_left' hlen5,
    List.take_left' (length_toBytesBE 8 t), fromBytesBE_toBytesBE]
  norm_num

/-- The `segment_index` field of a packed payload frame parses back
(modulo the u64 width of the `Q` field). -/
theorem parseSegmentIndex_packPayload (t i : Nat) (pl : List Nat) :
    Client.parseSegmentIndex (packPayload t i pl) = i % 2 ^ 64 := by
  have hgrp : packPayload t i pl =
      (toBytesBE 4 MAGIC_COOKIE ++ toBytesBE 1 MESSAGE_TYPE_PAYLOAD ++ toBytesBE 8 t) ++
        (toBytesBE 8 i ++ pl) := by
    simp [packPayload]
  have hlen13 : (toBytesBE 4 MAGIC_COOKIE ++ toBytesBE 1 MESSAGE_TYPE_PAYLOAD ++
      toBytesBE 8 t).length = 13 := by
    simp [length_toBytesBE]
  rw [Client.parseSegmentIndex, hgrp, List.drop_left' hlen13,
    List.take_left' (length_toBytesBE 8 i), fromBytesBE_toBytesBE]
  norm_num

/-- Truncating a packed payload frame to the client's 1045-byte receive
buffer truncates only the payload part. -/
theorem take_buffer_packPayload (t i : Nat) (pl : List Nat) :
    (packPayload t i pl).take (Client.BUFFER_SIZE + 21) =
      packPayload t i (pl.take Client.BUFFER_SIZE) := by
  have hgrp : packPayload t i pl =
      (toBytesBE 4 MAGIC_COOKIE ++ toBytesBE 1 MESSAGE_TYPE_PAYLOAD ++
        toBytesBE 8 t ++ toBytesBE 8 i) ++ pl := by
    simp [packPayload]
  have hgrp' : packPayload t i (pl.take Client.BUFFER_SIZE) =
      (toBytesBE 4 MAGIC_COOKIE ++ toBytesBE 1 MESSAGE_TYPE_PAYLOAD ++
        toBytesBE 8 t ++ toBytesBE 8 i) ++ pl.take Client.BUFFER_SIZE := by
    simp [packPayload]
  have hlen21 : (toBytesBE 4 MAGIC_COOKIE ++ toBytesBE 1 MESSAGE_TYPE_PAYLOAD ++
      toBytesBE 8 t ++ toBytesBE 8 i).length = 21 := by
    simp [length_toBytesBE]
  rw [hgrp, hgrp', List.take_append_eq_append_take, hlen21,
    List.take_of_length_le (by rw [hlen21]; norm_num [Client.BUFFER_SIZE])]
  norm_num [Client.BUFFER_SIZE]

/-- The receive-loop step on any well-formed payload frame: the index is
taken mod 2^64 (u64 field), duplicates are ignored, and at most
`BUFFER_SIZE` payload bytes survive the receive-buffer truncation. -/
theorem recvStep_packPayload (st : Client.Tracker) (t i : Nat) (pl : List Nat) :
    Client.recvStep st (packPayload t i pl) =
      if i % 2 ^ 64 ∈ st.received then st
      else ⟨insert (i % 2 ^ 64) st.received,
            st.total_received + min Client.BUFFER_SIZE pl.length⟩ := by
  simp only [Client.recvStep, take_buffer_packPayload, packPayload_length,
    parseMagic_packPayload, parseType_packPayload, parseSegmentIndex_packPayload,
    List.length_take]
  norm_num

/-- The receive-loop step on a payload frame whose index fits in a u64. -/
theorem recvStep_packPayload_of_lt (st : Client.Tracker) (t i : Nat) (pl : List Nat)
    (hi : i < 2 ^ 64) :
    Client.recvStep st (packPayload t i pl) =
      if i ∈ st.received then st
      else ⟨insert i st.received,
            st.total_received + min Client.BUFFER_SIZE pl.length⟩ := by
  rw [recvStep_packPayload, Nat.mod_eq_of_lt hi]

/-- C5: Segment-tracker idempotence: processing any delivered datagram a
second time changes neither the set of received segment indices nor the
received-byte total — in particular a duplicate Payload never inflates
either count. -/
theorem claim_C5_tracker_idempotent (st : Client.Tracker) (d : List Nat) :
    Client.recvStep (Client.recvStep st d) d = Client.recvStep st d := by
  by_cases h1 : (d.take (Client.BUFFER_SIZE + 21)).length < 21
  · simp only [Client.recvStep]
    rw [if_pos h1, if_pos h1]
  by_cases h2 : Client.parseMagic (d.take (Client.BUFFER_SIZE + 21)) ≠ MAGIC_COOKIE ∨
      Client.parseType (d.take (Client.BUFFER_SIZE + 21)) ≠ MESSAGE_TYPE_PAYLOAD
  · simp only [Client.recvStep]
    rw [if_neg h1, if_pos h2, if_neg h1, if_pos h2]
  by_cases h3 : Client.parseSegmentIndex (d.take (Client.BUFFER_SIZE + 21)) ∈ st.received
  · simp only [Client.recvStep]
    rw [if_neg h1, if_neg h2, if_pos h3, if_neg h1, if_neg h2, if_pos h3]
  · simp only [Client.recvStep]
    rw [if_neg h1, if_neg h2, if_neg h3, if_neg h1, if_neg h2,
      if_pos (Finset.mem_insert_self _ _)]

/-- C6: A datagram that is too short or has a wrong magic cookie or type
tag is silently discarded: the UDP transfer loop leaves its tracker state
unchanged, and the discovery loop just moves on to the next datagram. -/
theorem claim_C6_invalid_datagram_discarded (d : List Nat) (st : Client.Tracker)
    (ds : List (List Nat)) :
    ((d.take (Client.BUFFER_SIZE + 21)).length < 21 ∨
      Client.parseMagic (d.take (Client.BUFFER_SIZE + 21)) ≠ MAGIC_COOKIE ∨
      Client.parseType (d.take (Client.BUFFER_SIZE + 21)) ≠ MESSAGE_TYPE_PAYLOAD →
        Client.recvStep st d = st) ∧
    (d.length < 9 ∨ Client.parseMagic (d.take Client.BUFFER_SIZE) ≠ MAGIC_COOKIE ∨
      Client.parseType (d.take Client.BUFFER_SIZE) ≠ MESSAGE_TYPE_OFFER →
        Client.listen_for_offers (d :: ds) = Client.listen_for_offers ds) := by
  constructor
  · intro h
    simp only [Client.recvStep]
    split_ifs with k1 k2 k3
    · rfl
    · rfl
    · rfl
    · exfalso
      rcases h with h | h | h
      · exact k1 h
      · exact k2 (Or.inl h)
      · exact k2 (Or.inr h)
  · intro h
    have hnone : Client.parseOffer d = none := by
      simp only [Client.parseOffer]
      split_ifs with k1 k2
      · exfalso
        rcases h with h | h | h
        · rw [List.length_take] at k1
          omega
        · exact h k2.1
        · exact h k2.2
      · rfl
      · rfl
    simp [Client.listen_for_offers, hnone]

/-- C2 counterexample: for a 1-byte request the server emits exactly one
Payload frame and its `segment_index` header field is 1, not 0 — the
emitted indices are not `0..total_segments-1` as claimed. -/
theorem counterexample_C2_one_based_indices :
    (Server.handle_udp_request 1).map Client.parseSegmentIndex = [1] ∧
    List.range (Server.total_segments 1) = [0] ∧
    (Server.handle_udp_request 1).map Client.parseSegmentIndex ≠
      List.range (Server.total_segments 1) := by
  have h1 : Server.total_segments 1 = 1 := by decide
  have hr1 : List.range 1 = [0] := by decide
  have hmap : (Server.handle_udp_request 1).map Client.parseSegmentIndex = [1] := by
    rw [Server.handle_udp_request, h1, hr1]
    simp only [List.map_cons, List.map_nil]
    rw [Server.segment, parseSegmentIndex_packPayload]
    norm_num
  refine ⟨hmap, by rw [h1, hr1], ?_⟩
  rw [hmap, h1, hr1]
  decide

/-- C2 (amended): for every valid request size `0 < S < 2^64` the server's
segment loop sends exactly `total_segments` Payload frames whose
`segment_index` header values are precisely `1, 2, ..., total_segments`
(1-based, `i + 1` for loop index `i`), each frame carrying the same
`total_segments` value. -/
theorem claim_C2_server_segment_indices (S : Nat) (hS0 : 0 < S) (hS : S < 2 ^ 64) :
    (Server.handle_udp_request S).length = Server.total_segments S ∧
    (Server.handle_udp_request S).map Client.parseSegmentIndex =
      (List.range (Server.total_segments S)).map (fun i => i + 1) ∧
    ∀ d ∈ Server.handle_udp_request S,
      Client.parseTotalSegments d = Server.total_segments S := by
  have h64 : (2 : Nat) ^ 64 = 18446744073709551616 := by norm_num
  have htot : Server.total_segments S < 2 ^ 64 := by
    have h4 : S / 4096 + 1 < 2 ^ 64 := by
      rw [h64] at hS ⊢
      omega
    unfold Server.total_segments Server.BUFFER_SIZE
    split_ifs <;> omega
  refine ⟨?_, ?_, ?_⟩
  · simp [Server.handle_udp_request]
  · rw [Server.handle_udp_request, List.map_map]
    apply List.map_congr_left
    intro i hi
    rw [List.mem_range] at hi
    simp only [Function.comp_apply]
    rw [Server.segment, parseSegmentIndex_packPayload, Nat.mod_eq_of_lt (by omega)]
  · intro d hd
    rw [Server.handle_udp_request, List.mem_map] at hd
    obtain ⟨i, _, rfl⟩ := hd
    rw [Server.segment, parseTotalSegments_packPayload, Nat.mod_eq_of_lt htot]

/-- C2 witness: the amended statement instantiated at `S = 1`. -/
theorem witness_C2_server_segment_indices :
    (Server.handle_udp_request 1).map Client.parseSegmentIndex =
      (List.range (Server.total_segments 1)).map (fun i => i + 1) :=
  (claim_C2_server_segment_indices 1 (by norm_num) (by norm_num)).2.1

/-- C3 counterexample: the client's reported loss rate ignores the
`total_segments` value carried in the Payload headers.  A transfer of
requested size 5000 that receives one valid Payload whose header declares
`total_segments = 7` reports loss rate `1 - 1/5 = 4/5` (from
`expected_segments = ceil(5000/1024) = 5`), not `1 - 1/7` as the claim's
header-derived formula would give. -/
theorem counterexample_C3_header_total_ignored :
    Client.parseTotalSegments (packPayload 7 1 []) = 7 ∧
    Client.loss_rate 5000 (Client.udpRun [packPayload 7 1 []]) = 4 / 5 ∧
    Client.loss_rate 5000 (Client.udpRun [packPayload 7 1 []]) ≠ 1 - 1 / 7 := by
  have hparse : Client.parseTotalSegments (packPayload 7 1 []) = 7 := by
    rw [parseTotalSegments_packPayload]
    norm_num
  have hrun : Client.udpRun [packPayload 7 1 []] = ⟨{1}, 0⟩ := by
    rw [Client.udpRun]
    simp only [List.foldl_cons, List.foldl_nil]
    rw [recvStep_packPayload_of_lt _ _ _ _ (by norm_num)]
    simp
  have hexp : Client.expected_segments 5000 = 5 := by decide
  have hloss : Client.loss_rate 5000 (Client.udpRun [packPayload 7 1 []]) = 4 / 5 := by
    rw [hrun, Client.loss_rate, Client.success_rate, hexp]
    norm_num
  exact ⟨hparse, hloss, by rw [hloss]; norm_num⟩

/-- C3 (amended): the client's reported loss rate is
`1 - unique_received / expected_segments` with `expected_segments`
computed from the requested size as `ceil(file_size / 1024)` — not from
the header's `total_segments`, which the receive step ignores entirely:
two payload frames differing only in their `total_segments` header field
have identical effect on the tracker. -/
theorem claim_C3_loss_rate_uses_requested_size (fs : Nat) (st st' : Client.Tracker)
    (t t' i : Nat) (pl : List Nat) :
    Client.loss_rate fs st =
      1 - (st.received.card : ℚ) / (Client.expected_segments fs : ℚ) ∧
    Client.recvStep st' (packPayload t i pl) =
      Client.recvStep st' (packPayload t' i pl) := by
  constructor
  · rw [Client.loss_rate, Client.success_rate,
      mul_div_assoc ((st.received.card : ℚ) / (Client.expected_segments fs : ℚ))]
    norm_num
  · rw [recvStep_packPayload, recvStep_packPayload]

/-- C6 witness: a 3-byte garbage datagram is discarded by both loops. -/
theorem witness_C6_invalid_datagram :
    Client.recvStep ⟨∅, 0⟩ [0, 0, 0] = ⟨∅, 0⟩ ∧
    Client.listen_for_offers [[0, 0, 0]] = Client.listen_for_offers [] :=
  ⟨(claim_C6_invalid_datagram_discarded [0, 0, 0] ⟨∅, 0⟩ []).1 (Or.inl (by decide)),
   (claim_C6_invalid_datagram_discarded [0, 0, 0] ⟨∅, 0⟩ []).2 (Or.inl (by decide))⟩

/-- C1: evaluation of the code at the spec's example input.  For a
requested size of 5000 bytes the server (chunk size 4096) sends only 2
segments, with indices 1 and 2, while the client (chunk size 1024) expects
5; even with every datagram delivered (the first burst minus the datagram
consumed by the initial `recvfrom`, followed by a full retransmitted
burst) the tracker ends with 2 unique segments and 2048 bytes, and the
reported success rate is 40%, not 100%. -/
theorem claim_C1_udp_5000_evaluation :
    Client.udpRun ((Server.handle_udp_request 5000).drop 1 ++
        Server.handle_udp_request 5000) = ⟨{1, 2}, 2048⟩ ∧
    Client.expected_segments 5000 = 5 ∧
    Client.success_rate 5000 (Client.udpRun ((Server.handle_udp_request 5000).drop 1 ++
        Server.handle_udp_request 5000)) = 40 ∧
    Client.success_rate 5000 (Client.udpRun ((Server.handle_udp_request 5000).drop 1 ++
        Server.handle_udp_request 5000)) ≠ 100 := by
  have htot : Server.total_segments 5000 = 2 := by decide
  have hr2 : List.range 2 = [0, 1] := by decide
  have hburst : Server.handle_udp_request 5000 =
      [Server.segment 2 0, Server.segment 2 1] := by
    rw [Server.handle_udp_request, htot, hr2]
    rfl
  have s1 : Client.recvStep ⟨∅, 0⟩ (Server.segment 2 1) = ⟨{2}, 1024⟩ := by
    rw [Server.segment, recvStep_packPayload_of_lt _ _ _ _ (by norm_num)]
    rw [if_neg (by decide)]
    simp only [List.length_replicate, Client.BUFFER_SIZE, Server.BUFFER_SIZE]
    decide
  have s2 : Client.recvStep ⟨{2}, 1024⟩ (Server.segment 2 0) = ⟨{1, 2}, 2048⟩ := by
    rw [Server.segment, recvStep_packPayload_of_lt _ _ _ _ (by norm_num)]
    rw [if_neg (by decide)]
    simp only [List.length_replicate, Client.BUFFER_SIZE, Server.BUFFER_SIZE]
    decide
  have s3 : Client.recvStep ⟨{1, 2}, 2048⟩ (Server.segment 2 1) = ⟨{1, 2}, 2048⟩ := by
    rw [Server.segment, recvStep_packPayload_of_lt _ _ _ _ (by norm_num)]
    rw [if_pos (by decide)]
  have hrun : Client.udpRun ((Server.handle_udp_request 5000).drop 1 ++
      Server.handle_udp_request 5000) = ⟨{1, 2}, 2048⟩ := by
    rw [hburst]
    show Client.udpRun [Server.segment 2 1, Server.segment 2 0, Server.segment 2 1] = _
    rw [Client.udpRun]
    simp only [List.foldl_cons, List.foldl_nil]
    rw [s1, s2, s3]
  have hexp : Client.expected_segments 5000 = 5 := by decide
  have hcard : ({1, 2} : Finset Nat).card = 2 := by decide
  have hrate : Client.success_rate 5000 (Client.udpRun
      ((Server.handle_udp_request 5000).drop 1 ++ Server.handle_udp_request 5000)) = 40 := by
    rw [hrun, Client.success_rate, hexp, hcard]
    norm_num
  exact ⟨hrun, hexp, hrate, by rw [hrate]; norm_num⟩

/-- The client's `expected_segments` expression is the ceiling of
`file_size / 1024`. -/
theorem expected_segments_eq_ceil (S : Nat) :
    Client.expected_segments S = ⌈(S : ℚ) / 1024⌉₊ := by
  have hdef : Client.expected_segments S = (S + 1023) / 1024 := by
    unfold Client.expected_segments Client.BUFFER_SIZE
    omega
  rcases Nat.eq_zero_or_pos S with hS | hS
  · subst hS
    simp [hdef]
  · have hq1 : (S + 1023) / 1024 ≠ 0 := by omega
    rw [hdef, eq_comm, Nat.ceil_eq_iff hq1]
    have hub : S ≤ (S + 1023) / 1024 * 1024 := by omega
    have hlb : ((S + 1023) / 1024 - 1) * 1024 < S := by omega
    constructor
    · rw [lt_div_iff₀ (by norm_num : (0 : ℚ) < 1024)]
      exact_mod_cast hlb
    · rw [div_le_iff₀ (by norm_num : (0 : ℚ) < 1024)]
      exact_mod_cast hub

/-- The server's `total_segments` expression is the ceiling of
`file_size / 4096` — with the server's own chunk size 4096, not 1024. -/
theorem total_segments_eq_ceil (S : Nat) :
    Server.total_segments S = ⌈(S : ℚ) / 4096⌉₊ := by
  have hdef : Server.total_segments S = (S + 4095) / 4096 := by
    unfold Server.total_segments Server.BUFFER_SIZE
    split_ifs with h <;> omega
  rcases Nat.eq_zero_or_pos S with hS | hS
  · subst hS
    simp [hdef]
  · have hq1 : (S + 4095) / 4096 ≠ 0 := by omega
    rw [hdef, eq_comm, Nat.ceil_eq_iff hq1]
    have hub : S ≤ (S + 4095) / 4096 * 4096 := by omega
    have hlb : ((S + 4095) / 4096 - 1) * 4096 < S := by omega
    constructor
    · rw [lt_div_iff₀ (by norm_num : (0 : ℚ) < 4096)]
      exact_mod_cast hlb
    · rw [div_le_iff₀ (by norm_num : (0 : ℚ) < 4096)]
      exact_mod_cast hub

/-- C4 counterexample: at S = 10000 the server computes 3 segments
(ceil(10000/4096), its `BUFFER_SIZE` being 4096), not 10 as the claim
asserts for both sides. -/
theorem counterexample_C4_server_uses_4096 :
    Server.total_segments 10000 = 3 ∧
    Client.expected_segments 10000 = 10 ∧
    Server.total_segments 10000 ≠ ⌈((10000 : Nat) : ℚ) / 1024⌉₊ := by
  have hceil : ⌈((10000 : Nat) : ℚ) / 1024⌉₊ = 10 := by
    rw [← expected_segments_eq_ceil]
    decide
  refine ⟨by decide, by decide, ?_⟩
  rw [hceil]
  decide

/-- C4 (amended): for every requested size S ≥ 1 the client's
`expected_segments` equals ceil(S/1024) but the server's `total_segments`
equals ceil(S/4096); for S = 10000 they give 10 and 3 respectively. -/
theorem claim_C4_segment_count_formulas (S : Nat) (_hS : 1 ≤ S) :
    Client.expected_segments S = ⌈(S : ℚ) / 1024⌉₊ ∧
    Server.total_segments S = ⌈(S : ℚ) / 4096⌉₊ ∧
    Client.expected_segments 10000 = 10 ∧
    Server.total_segments 10000 = 3 :=
  ⟨expected_segments_eq_ceil S, total_segments_eq_ceil S, by decide, by decide⟩

/-- C4 witness: the amended statement instantiated at S = 10000. -/
theorem witness_C4_segment_count :
    Client.expected_segments 10000 = 10 ∧ Server.total_segments 10000 = 3 :=
  ⟨(claim_C4_segment_count_formulas 10000 (by norm_num)).2.2.1,
   (claim_C4_segment_count_formulas 10000 (by norm_num)).2.2.2⟩

/-- C7: the TCP send loop emits chunks that sum to exactly the requested
size, each chunk positive and at most `BUFFER_SIZE` (4096) bytes. -/
theorem claim_C7_tcp_sends_exact_total (n : Nat) :
    (Server.tcpChunks n).sum = n ∧
    ∀ c ∈ Server.tcpChunks n, 0 < c ∧ c ≤ Server.BUFFER_SIZE := by
  induction n using Nat.strong_induction_on with
  | _ n ih =>
    rw [Server.tcpChunks]
    split_ifs with h
    · subst h
      simp
    · have hmin : 0 < min Server.BUFFER_SIZE n := by
        have : (0 : Nat) < Server.BUFFER_SIZE := by norm_num [Server.BUFFER_SIZE]
        omega
      have hrec := ih (n - min Server.BUFFER_SIZE n) (by omega)
      constructor
      · rw [List.sum_cons, hrec.1]
        omega
      · intro c hc
        rcases List.mem_cons.mp hc with rfl | hc
        · exact ⟨hmin, min_le_left _ _⟩
        · exact hrec.2 c hc

/-- C8: the throughput divisor is never zero: for a measured (non-negative)
elapsed time, both transfer paths divide `received_bytes * 8` by the
elapsed time when it is positive and by the fixed epsilon 0.001 when it
is zero. -/
theorem claim_C8_speed_never_divides_by_zero (r : Nat) (e : ℚ) (he : 0 ≤ e) :
    ((if 0 < e then e else 1/1000) ≠ 0 ∧ Client.udp_adjusted_elapsed e ≠ 0) ∧
    (0 < e → Client.tcp_speed r e = (r : ℚ) * 8 / e ∧
      Client.udp_speed r e = (r : ℚ) * 8 / e) ∧
    (e = 0 → Client.tcp_speed r e = (r : ℚ) * 8 / (1/1000) ∧
      Client.udp_speed r e = (r : ℚ) * 8 / (1/1000)) := by
  refine ⟨⟨?_, ?_⟩, ?_, ?_⟩
  · split_ifs with h
    · exact ne_of_gt h
    · norm_num
  · rw [Client.udp_adjusted_elapsed]
    split_ifs with h
    · norm_num
    · exact h
  · intro h
    refine ⟨?_, ?_⟩
    · rw [Client.tcp_speed, if_pos h]
    · rw [Client.udp_speed, Client.udp_adjusted_elapsed, if_neg (ne_of_gt h)]
  · intro h
    subst h
    refine ⟨?_, ?_⟩
    · rw [Client.tcp_speed, if_neg (lt_irrefl 0)]
    · rw [Client.udp_speed, Client.udp_adjusted_elapsed, if_pos rfl]

/-- C8 witness: at elapsed = 0 and 1000 received bytes the epsilon divisor
is used on both paths. -/
theorem witness_C8_speed_epsilon :
    Client.tcp_speed 1000 0 = (1000 : ℚ) * 8 / (1/1000) ∧
    Client.udp_speed 1000 0 = (1000 : ℚ) * 8 / (1/1000) :=
  (claim_C8_speed_never_divides_by_zero 1000 0 le_rfl).2.2 rfl

/-- C9: each average is computed only over the records of its own protocol
— it is unchanged by records of the other protocol and is omitted (`none`)
exactly when no record of that protocol exists. -/
theorem claim_C9_averages_per_protocol (l : List Client.Stat) :
    (Client.avg_tcp_speed l = none ↔ Client.tcp_stats l = []) ∧
    Client.avg_tcp_speed l = Client.avg_tcp_speed (Client.tcp_stats l) ∧
    (∀ s, s.isUDP → Client.avg_tcp_speed (s :: l) = Client.avg_tcp_speed l) ∧
    (Client.avg_udp_stats l = none ↔ Client.udp_stats l = []) ∧
    Client.avg_udp_stats l = Client.avg_udp_stats (Client.udp_stats l) ∧
    (∀ s, s.isTCP → Client.avg_udp_stats (s :: l) = Client.avg_udp_stats l) := by
  have hidemT : Client.tcp_stats (Client.tcp_stats l) = Client.tcp_stats l := by
    simp [Client.tcp_stats, List.filter_filter]
  have hidemU : Client.udp_stats (Client.udp_stats l) = Client.udp_stats l := by
    simp [Client.udp_stats, List.filter_filter]
  refine ⟨?_, ?_, ?_, ?_, ?_, ?_⟩
  · rw [Client.avg_tcp_speed]
    split_ifs with h <;> simp [h]
  · simp only [Client.avg_tcp_speed, hidemT]
  · intro s hs
    have hcons : Client.tcp_stats (s :: l) = Client.tcp_stats l := by
      cases s with
      | tcp fs sp => simp [Client.Stat.isUDP] at hs
      | udp fs sp sr => simp [Client.tcp_stats, Client.Stat.isTCP]
    simp only [Client.avg_tcp_speed, hcons]
  · rw [Client.avg_udp_stats]
    split_ifs with h <;> simp [h]
  · simp only [Client.avg_udp_stats, hidemU]
  · intro s hs
    have hcons : Client.udp_stats (s :: l) = Client.udp_stats l := by
      cases s with
      | udp fs sp sr => simp [Client.Stat.isTCP] at hs
      | tcp fs sp => simp [Client.udp_stats, Client.Stat.isUDP]
    simp only [Client.avg_udp_stats, hcons]

/-- C9 witness: a UDP record does not change the TCP average. -/
theorem witness_C9_averages_per_protocol :
    Client.avg_tcp_speed (Client.Stat.udp 1 2 3 :: [Client.Stat.tcp 4 5]) =
      Client.avg_tcp_speed [Client.Stat.tcp 4 5] :=
  (claim_C9_averages_per_protocol [Client.Stat.tcp 4 5]).2.2.1
    (Client.Stat.udp 1 2 3) rfl

/-- The `connection_stats` fold is plain concatenation of all rounds'
records. -/
theorem statsAfterRounds_eq_join (rounds : List (List Client.Stat)) :
    Client.statsAfterRounds rounds = rounds.flatten := by
  suffices h : ∀ acc, rounds.foldl Client.speed_test_append acc = acc ++ rounds.flatten by
    simpa [Client.statsAfterRounds] using h []
  induction rounds with
  | nil => intro acc; simp
  | cons r rs ih =>
    intro acc
    simp [Client.speed_test_append, ih, List.append_assoc]

/-- C10: `connection_stats` is only ever appended to: after the main loop
has run the given rounds it holds the concatenation of every round's
records, the list round `n` aggregates over is the concatenation of the
records of rounds `0..n`, and for `m ≤ n` the list aggregated at round `n`
extends the list aggregated at round `m` — earlier rounds' records are
never cleared before later aggregates. -/
theorem claim_C10_stats_accumulate_across_rounds (rounds : List (List Client.Stat))
    (m n : Nat) (hmn : m ≤ n) :
    Client.statsAfterRounds rounds = rounds.flatten ∧
    Client.statsAtRound rounds n = (rounds.take (n + 1)).flatten ∧
    ∃ rest, Client.statsAtRound rounds n = Client.statsAtRound rounds m ++ rest := by
  refine ⟨statsAfterRounds_eq_join rounds, statsAfterRounds_eq_join _,
    ⟨((rounds.take (n + 1)).drop (m + 1)).flatten, ?_⟩⟩
  rw [Client.statsAtRound, Client.statsAtRound, statsAfterRounds_eq_join,
    statsAfterRounds_eq_join, ← List.flatten_append]
  congr 1
  have h1 : List.take (m + 1) rounds = List.take (m + 1) (List.take (n + 1) rounds) := by
    rw [List.take_take, min_eq_left (by omega)]
  rw [h1, List.take_append_drop]

/-- C10 witness: with two rounds of one record each, the list used by the
second round's aggregate extends the list used by the first round's. -/
theorem witness_C10_stats_accumulate :
    ∃ rest, Client.statsAtRound [[Client.Stat.tcp 1 2], [Client.Stat.udp 3 4 5]] 1 =
      Client.statsAtRound [[Client.Stat.tcp 1 2], [Client.Stat.udp 3 4 5]] 0 ++ rest :=
  (claim_C10_stats_accumulate_across_rounds
    [[Client.Stat.tcp 1 2], [Client.Stat.udp 3 4 5]] 0 1 (by norm_num)).2.2
